import Mathlib

/-!
Shallow embedding of the wallet `Node` RPC client (package `wallet`,
file `node.go`, shown concatenated inside `src/store/http.go`): the
multiplexed request/response correlator, the receive loop with its
dual-envelope decode, the push router, and the address-failover
`Connect` routine.  Machine integers (`uint32`) are modelled as `Nat`
with an explicit `% 2^32` where the code can overflow; Go errors are
an explicit inductive; Go channels are explicit buffers.
-/

namespace Wallet

/-- Errors produced by the wallet node, mirroring the `errors.Base`
values and the dynamically built errors of `node.go`. -/
inductive WErr where
  | errTimeout : WErr
  | errNodeConnected : WErr
  | errConnectFailed : WErr
  | sendFail (e : String) : WErr
  | decodeFail (raw : String) : WErr
  | serverErr (code : Int) (message : String) : WErr
  | unmarshalFail (e : String) : WErr
  | transportErr (e : String) : WErr
  deriving DecidableEq, Repr

/-- Response as delivered on a handler channel: `type response struct
\x7b data []byte; err error \x7d`.  Raw bytes are modelled as `String`. -/
structure response where
  data : String
  err : Option WErr
  deriving DecidableEq, Repr

/-- Error object of the primary envelope shape: `struct \x7b Code int;
Message string \x7d`. -/
structure WalletError where
  Code : Int
  Message : String
  deriving DecidableEq, Repr

/-- Primary inbound envelope shape `msg`: `\x7bid, method,
error:\x7bcode, message\x7d\x7d`. -/
structure Msg where
  ID : Nat
  Method : String
  Error : WalletError
  deriving DecidableEq, Repr

/-- Error object of the alternate envelope shape: outer code plus a
nested `WalletError` in the `message` field. -/
structure MsgBError where
  Code : Int
  Message : WalletError
  deriving DecidableEq, Repr

/-- Alternate inbound envelope shape `msg2`: `\x7bid, method,
error:\x7bcode, message:\x7bcode, message\x7d\x7d\x7d`. -/
structure Msg2 where
  ID : Nat
  Method : String
  Error : MsgBError
  deriving DecidableEq, Repr

/-- Zero value of `Msg`, the contents of the unmarshal target before
any field is written.  A syntactically invalid frame leaves the target
exactly at this value (Go validates the whole input before writing any
field), while a type mismatch inside syntactically valid JSON can
leave some fields populated. -/
def zeroMsg : Msg := { ID := 0, Method := "", Error := { Code := 0, Message := "" } }

/-- Zero value of `Msg2`, the alternate-shape unmarshal target before
any field is written. -/
def zeroMsg2 : Msg2 :=
  { ID := 0, Method := "", Error := { Code := 0, Message := { Code := 0, Message := "" } } }

/-- Inbound raw frame together with the outcome of `json.Unmarshal`
into each of the two envelope shapes.  Go's `Unmarshal` writes into an
out-parameter: `msgA`/`msgB` hold the contents of the target struct
after the call — the decoded value when `errA`/`errB` is `none`, and
otherwise whatever fields the failed unmarshal populated before
erroring (the zero value for a syntactically invalid frame, a partial
population for a type mismatch inside valid JSON).  The JSON parser
itself is external (`encoding/json`). -/
structure Frame where
  raw : String
  msgA : Msg
  errA : Option String
  msgB : Msg2
  errB : Option String
  deriving DecidableEq, Repr

/-- Handler map `map[uint32]chan response`: association list from
correlation id to the buffered contents of the single-slot channel. -/
abbrev HandlerMap := List (Nat × List response)

/-- Map lookup `c, ok := n.handlers[id]`. -/
def hmLookup (m : HandlerMap) (id : Nat) : Option (List response) :=
  (m.find? (fun e => e.1 = id)).map (·.2)

/-- Map deletion `delete(n.handlers, id)`. -/
def hmErase (m : HandlerMap) (id : Nat) : HandlerMap :=
  m.filter (fun e => ¬ e.1 = id)

/-- Map assignment `n.handlers[id] = c` (overwrites any previous
entry for the key, as Go map assignment does). -/
def hmInsert (m : HandlerMap) (id : Nat) (v : List response) : HandlerMap :=
  (id, v) :: hmErase m id

/-- Subscriber channel `chan response` with a fixed capacity and its
current buffered contents. -/
structure Chan where
  cap : Nat
  buf : List response
  deriving DecidableEq, Repr

/-- Non-blocking channel send, the `select \x7b case handler <- r:
default: \x7d` of the push fan-out: append if there is room, silently
drop otherwise. -/
def offerNB (r : response) (c : Chan) : Chan :=
  if c.buf.length < c.cap then { c with buf := c.buf ++ [r] } else c

/-- Push-handler map `map[string][]chan response` as an association
list from method name to the subscriber channels. -/
abbrev PushMap := List (String × List Chan)

/-- Read `n.pushHandlers[method]`: Go yields the nil slice when the
key is absent. -/
def pmLookup (m : PushMap) (method : String) : List Chan :=
  match m.find? (fun e => e.1 = method) with
  | some e => e.2
  | none => []

/-- Fan-out of one response to every subscriber of `method` by
non-blocking sends; entries for other methods are untouched. -/
def pushBroadcast (m : PushMap) (method : String) (r : response) : PushMap :=
  m.map (fun e => if e.1 = method then (e.1, e.2.map (offerNB r)) else e)

/-- Mutable state of a `Node` that the dispatcher and receive loop
share: the id counter, the pending-handler map, the push-subscriber
map, and the configured per-request timeout (nanoseconds). -/
structure NodeState where
  nextID : Nat
  handlers : HandlerMap
  pushHandlers : PushMap
  timeout : Nat
  deriving DecidableEq, Repr

/-- Nanoseconds in `1 * time.Second`. -/
def oneSecond : Nat := 1000000000

/-- Fresh node from `NewNode()`: empty maps, zero counter, 1 second
timeout. -/
def NewNode : NodeState :=
  { nextID := 0, handlers := [], pushHandlers := [], timeout := oneSecond }

/-- Decode step of `listen` for one frame: unmarshal into the primary
shape; on failure retry the alternate shape and, if that succeeds,
normalize it into the primary shape (`msg.ID = msg2.ID; msg.Method =
msg2.Method; msg.Error = msg2.Error.Message`).  When both unmarshals
fail, `msg` keeps whatever the first unmarshal left in it — zero for a
syntactically invalid frame, partially populated fields for a type
mismatch — and the routing below uses those fields.  Returns the
envelope used for routing together with the decode error, if any. -/
def decodeEnvelope (fr : Frame) : Msg × Option WErr :=
  match fr.errA with
  | none => (fr.msgA, none)
  | some _ =>
    match fr.errB with
    | none => ({ ID := fr.msgB.ID, Method := fr.msgB.Method, Error := fr.msgB.Error.Message }, none)
    | some _ => (fr.msgA, some (WErr.decodeFail fr.raw))

/-- Classification step of `listen`: a decode failure becomes an error
response; a non-empty `msg.Error.Message` becomes a server error built
from code and message; otherwise a success response carrying the raw
frame bytes. -/
def classify (fr : Frame) : Msg × response :=
  let d := decodeEnvelope fr
  match d.2 with
  | some e => (d.1, { data := "", err := some e })
  | none =>
    if 0 < d.1.Error.Message.length then
      (d.1, { data := "", err := some (WErr.serverErr d.1.Error.Code d.1.Error.Message) })
    else
      (d.1, { data := fr.raw, err := none })

/-- Delivery to a pending handler: `c, ok := n.handlers[msg.ID]; if ok
\x7b c <- r \x7d`.  The send is modelled as appending to the channel
buffer. -/
def deliverToPending (m : HandlerMap) (id : Nat) (r : response) : HandlerMap :=
  match hmLookup m id with
  | some buf => hmInsert m id (buf ++ [r])
  | none => m

/-- One iteration of the receive loop body of `listen` on a frame
taken from `transport.Responses()`: decode (with fallback), classify,
log a decode failure, fan out to push subscribers when the method name
is non-empty, and deliver to the pending handler for `msg.ID` when one
exists.  Returns the new state and the list of errors logged via
`n.err`. -/
def handleFrame (st : NodeState) (fr : Frame) : NodeState × List WErr :=
  let c := classify fr
  let msg := c.1
  let r := c.2
  let logs := match (decodeEnvelope fr).2 with
    | some e => [e]
    | none => []
  let ph := if 0 < msg.Method.length then pushBroadcast st.pushHandlers msg.Method r
            else st.pushHandlers
  let hs := deliverToPending st.handlers msg.ID r
  ({ st with handlers := hs, pushHandlers := ph }, logs)

/-- Hexadecimal digit character for `\uXXXX` escapes. -/
def hexDigit (n : Nat) : Char :=
  if n < 10 then Char.ofNat (48 + n) else Char.ofNat (87 + n)

/-- Escape of one character under Go `encoding/json` marshalling with
its default HTML escaping (quotes, backslash, control characters, the
HTML-sensitive `<`, `>`, `&`, and U+2028/U+2029). -/
def escapeChar (c : Char) : List Char :=
  if c = '"' then ['\\', '"']
  else if c = '\\' then ['\\', '\\']
  else if c = '\n' then ['\\', 'n']
  else if c = '\r' then ['\\', 'r']
  else if c = '\t' then ['\\', 't']
  else if c.toNat < 32 then
    ['\\', 'u', '0', '0', hexDigit (c.toNat / 16), hexDigit (c.toNat % 16)]
  else if c = '<' then ['\\', 'u', '0', '0', '3', 'c']
  else if c = '>' then ['\\', 'u', '0', '0', '3', 'e']
  else if c = '&' then ['\\', 'u', '0', '0', '2', '6']
  else if c.toNat = 8232 then ['\\', 'u', '2', '0', '2', '8']
  else if c.toNat = 8233 then ['\\', 'u', '2', '0', '2', '9']
  else [c]

/-- JSON string literal for `s` as `encoding/json` emits it. -/
def jsonQuote (s : String) : String :=
  "\"" ++ String.mk (s.data.foldr (fun c acc => escapeChar c ++ acc) []) ++ "\""

/-- JSON array for a `[]string` value as `encoding/json` emits it. -/
def marshalParams (params : List String) : String :=
  "[" ++ String.intercalate "," (params.map jsonQuote) ++ "]"

/-- JSON object `json.Marshal` produces for the outbound request
struct, fields in declaration order `id`, `method`, `params`. -/
def marshalRequest (id : Nat) (method : String) (params : List String) : String :=
  "\x7b\"id\":" ++ toString id ++ ",\"method\":" ++ jsonQuote method ++
    ",\"params\":" ++ marshalParams params ++ "\x7d"

/-- Modelled from the spec: the protocol `delimiter` byte appended to
each outbound frame is defined in the TCP transport source file, which
is not under src/; §6 describes the framing as newline-delimited JSON
objects, so the delimiter is modelled as the newline byte. -/
def delimiter : Char := '\n'

/-- Which of the three select cases of `request` resolves the wait. -/
inductive WaitOutcome where
  | shutdownFired : WaitOutcome
  | delivered (r : response) : WaitOutcome
  | timedOut : WaitOutcome
  deriving DecidableEq, Repr

/-- Time-ordered resolution of the three-way select in `request`
(shutdown signal, response channel, `time.After(n.timeout)`): the
event with the earliest time wins.  Go select chooses among
simultaneously ready cases nondeterministically, so the theorems below
rely only on strict orderings. -/
def selectOutcome (shutdownAt : Option Nat) (respAt : Option Nat) (r : response)
    (timeout : Nat) : WaitOutcome :=
  match shutdownAt, respAt with
  | some s, some t =>
    if s ≤ t ∧ s < timeout then WaitOutcome.shutdownFired
    else if t < timeout then WaitOutcome.delivered r
    else WaitOutcome.timedOut
  | some s, none =>
    if s < timeout then WaitOutcome.shutdownFired else WaitOutcome.timedOut
  | none, some t =>
    if t < timeout then WaitOutcome.delivered r else WaitOutcome.timedOut
  | none, none => WaitOutcome.timedOut

/-- Result of one `request` call: the node state after the call, the
correlation id the call used, the exact bytes handed to
`transport.Send`, and the returned error (`none` = nil). -/
structure ReqResult where
  state : NodeState
  reqID : Nat
  sent : String
  ret : Option WErr
  deriving DecidableEq, Repr

/-- One `request(method, params, v)` call, sequential interleaving of
the counter accesses (the Load/Inc race is modelled separately by
`raceRun`).  `sendRes` is the outcome of `transport.Send` (`none` =
nil), `outcome` resolves the three-way select, and `decodeInto` is the
outcome of the final `json.Unmarshal(r.data, v)` into the caller's
value.  The handler entry is registered before the send; it is erased
only on the response-delivery and timeout paths — the early returns on
send failure and on the shutdown signal skip the delete. -/
def request (st : NodeState) (method : String) (params : List String)
    (sendRes : Option String) (outcome : WaitOutcome)
    (decodeInto : String → Option WErr) : ReqResult :=
  let id := st.nextID % 2 ^ 32
  let st1 := { st with nextID := (st.nextID + 1) % 2 ^ 32 }
  let bytes := marshalRequest id method params ++ String.mk [delimiter]
  let st2 := { st1 with handlers := hmInsert st1.handlers id [] }
  match sendRes with
  | some e => { state := st2, reqID := id, sent := bytes, ret := some (WErr.sendFail e) }
  | none =>
    match outcome with
    | WaitOutcome.shutdownFired =>
      { state := st2, reqID := id, sent := bytes, ret := none }
    | WaitOutcome.delivered r =>
      { state := { st2 with handlers := hmErase st2.handlers id }, reqID := id, sent := bytes,
        ret := match r.err with | some e => some e | none => decodeInto r.data }
    | WaitOutcome.timedOut =>
      { state := { st2 with handlers := hmErase st2.handlers id }, reqID := id, sent := bytes,
        ret := some WErr.errTimeout }

/-- Outcome of `NewTransport(addr, config)` for one candidate
address. -/
inductive Attempt where
  | ok (t : Nat) : Attempt
  | timeoutErr : Attempt
  | noSuchHost : Attempt
  | otherErr (e : String) : Attempt
  deriving DecidableEq, Repr

/-- Failure classes `Connect` treats as non-fatal for a candidate: a
timeout-classified error or the DNS "no such host" error. -/
def continuable : Attempt → Bool
  | Attempt.timeoutErr => true
  | Attempt.noSuchHost => true
  | _ => false

/-- Connection loop of `Connect` over the (already shuffled) candidate
outcomes: break on the first success, `continue` on a continuable
failure, return any other error immediately.  Result: the final
`n.transport` (`none` = nil) and the early-returned error, if any. -/
def tryAddrs : List Attempt → Option Nat × Option WErr
  | [] => (none, none)
  | a :: rest =>
    match a with
    | Attempt.ok t => (some t, none)
    | Attempt.timeoutErr => tryAddrs rest
    | Attempt.noSuchHost => tryAddrs rest
    | Attempt.otherErr e => (none, some (WErr.transportErr e))

/-- Swap of two positions of a list, the `swap` callback handed to
`rand.Shuffle`. -/
def swapAt (l : List α) (i j : Nat) : List α :=
  match l.get? i, l.get? j with
  | some a, some b => (l.set i b).set j a
  | _, _ => l

/-- Fisher–Yates pass of `rand.Shuffle(len(addrs), swap)`: for
`i := n-1; i > 0; i--` swap positions `i` and `j = rand.Intn(i+1)`;
the random draws are supplied in `js`, reduced mod `i+1`. -/
def shuffleAux : List α → List Nat → Nat → List α
  | l, _, 0 => l
  | l, [], _ + 1 => l
  | l, j :: rest, c + 1 => shuffleAux (swapAt l (c + 1) (j % (c + 2))) rest c

/-- In-place random shuffle of the caller's address slice. -/
def shuffleGo (l : List α) (js : List Nat) : List α :=
  shuffleAux l js (l.length - 1)

/-- Result of `Connect`: the caller's address slice as it stands after
the call, the node's transport, and the returned error. -/
structure ConnectResult where
  addrs : List String
  transport : Option Nat
  ret : Option WErr
  deriving DecidableEq, Repr

/-- Full `Connect(addrs, config)`: fail at once when a transport
already exists (leaving the slice untouched), otherwise shuffle the
caller's slice in place, run the connection loop over it, and fail
with `ErrConnectFailed` when the loop ends with a nil transport and no
early error.  `attempt` gives the `NewTransport` outcome per address,
`js` the shuffle's random draws. -/
def Connect (transport : Option Nat) (addrs : List String) (js : List Nat)
    (attempt : String → Attempt) : ConnectResult :=
  if transport.isSome then
    { addrs := addrs, transport := transport, ret := some WErr.errNodeConnected }
  else
    let shuffled := shuffleGo addrs js
    let res := tryAddrs (shuffled.map attempt)
    match res.2 with
    | some e => { addrs := shuffled, transport := res.1, ret := some e }
    | none =>
      match res.1 with
      | none => { addrs := shuffled, transport := none, ret := some WErr.errConnectFailed }
      | some t => { addrs := shuffled, transport := some t, ret := none }

/-- State of `k` concurrent `request` calls racing on the shared
`nextID` counter: the counter value, the id each call has read with
`nextID.Load()` (if it has), and whether each call has executed its
`nextID.Inc()` yet. -/
structure RaceState where
  counter : Nat
  loaded : List (Option Nat)
  incDone : List Bool
  deriving DecidableEq, Repr

/-- Race starting state: fresh counter, `k` calls yet to run. -/
def raceInit (k : Nat) : RaceState :=
  { counter := 0, loaded := List.replicate k none, incDone := List.replicate k false }

/-- One scheduler step: call `i` executes its next pending atomic
operation — first the `Load` that records its correlation id, then the
`Inc`.  Each operation is individually atomic but the pair is not,
exactly as `ID: n.nextID.Load()` followed by `n.nextID.Inc()`. -/
def raceStep (st : RaceState) (i : Nat) : RaceState :=
  match st.loaded.get? i with
  | none => st
  | some none => { st with loaded := st.loaded.set i (some (st.counter % 2 ^ 32)) }
  | some (some _) =>
    match st.incDone.get? i with
    | some false =>
      { st with counter := (st.counter + 1) % 2 ^ 32, incDone := st.incDone.set i true }
    | _ => st

/-- Execution of a whole schedule of counter accesses. -/
def raceRun (sched : List Nat) (k : Nat) : RaceState :=
  sched.foldl raceStep (raceInit k)

/-! Helper lemmas about the map and channel models. -/

theorem hmLookup_hmInsert (m : HandlerMap) (id : Nat) (v : List response) :
    hmLookup (hmInsert m id v) id = some v := by
  simp [hmLookup, hmInsert, List.find?]

theorem hmLookup_hmErase (m : HandlerMap) (id : Nat) :
    hmLookup (hmErase m id) id = none := by
  induction m with
  | nil => rfl
  | cons e t ih =>
    by_cases h : e.1 = id
    · simp only [hmErase, List.filter, h] at ih ⊢
      simp only [decide_not]
      simp [ih, hmErase] at ih ⊢
      exact ih
    · simp [hmErase, hmLookup, List.filter, List.find?, h] at ih ⊢

theorem pmLookup_cons (e : String × List Chan) (t : PushMap) (M : String) :
    pmLookup (e :: t) M = if e.1 = M then e.2 else pmLookup t M := by
  by_cases h : e.1 = M <;> simp [pmLookup, List.find?, h]

theorem pushBroadcast_cons (e : String × List Chan) (t : PushMap) (M : String) (r : response) :
    pushBroadcast (e :: t) M r
      = (if e.1 = M then (e.1, e.2.map (offerNB r)) else e) :: pushBroadcast t M r := rfl

theorem pmLookup_pushBroadcast_self (ph : PushMap) (M : String) (r : response) :
    pmLookup (pushBroadcast ph M r) M = (pmLookup ph M).map (offerNB r) := by
  induction ph with
  | nil => rfl
  | cons e t ih =>
    rw [pushBroadcast_cons]
    by_cases h : e.1 = M
    · rw [if_pos h, pmLookup_cons, pmLookup_cons, if_pos h]
      simp [h]
    · rw [if_neg h, pmLookup_cons, pmLookup_cons, if_neg h, if_neg h, ih]

theorem pmLookup_pushBroadcast_ne (ph : PushMap) (M other : String) (r : response)
    (h : ¬ other = M) :
    pmLookup (pushBroadcast ph M r) other = pmLookup ph other := by
  induction ph with
  | nil => rfl
  | cons e t ih =>
    rw [pushBroadcast_cons]
    by_cases he : e.1 = M
    · have hne : ¬ e.1 = other := by rw [he]; exact fun hc => h hc.symm
      rw [if_pos he, pmLookup_cons, pmLookup_cons, if_neg hne]
      simp only [he]
      rw [if_neg fun hc => h hc.symm, ih]
    · rw [if_neg he, pmLookup_cons, pmLookup_cons]
      by_cases ho : e.1 = other
      · rw [if_pos ho, if_pos ho]
      · rw [if_neg ho, if_neg ho, ih]

theorem pushBroadcast_of_no_subscriber (ph : PushMap) (M : String) (r : response)
    (h : ∀ e ∈ ph, ¬ e.1 = M) :
    pushBroadcast ph M r = ph := by
  induction ph with
  | nil => rfl
  | cons e t ih =>
    rw [pushBroadcast_cons, if_neg (h e (List.mem_cons_self e t)),
      ih fun x hx => h x (List.mem_cons_of_mem e hx)]

theorem count_set_add [BEq α] [LawfulBEq α] (l : List α) (i : Nat) (b x : α)
    (h : i < l.length) :
    (l.set i b).count x + (if l[i] == x then 1 else 0)
      = l.count x + (if b == x then 1 else 0) := by
  have hle : (if l[i] == x then 1 else 0) ≤ l.count x := by
    have hb := List.boole_getElem_le_countP (fun y => y == x) l i h
    simpa [List.count_eq_countP] using hb
  rw [List.count_set b x l i h]
  omega

theorem swapAt_perm [DecidableEq α] (l : List α) (i j : Nat) :
    (swapAt l i j).Perm l := by
  unfold swapAt
  cases hi : l.get? i with
  | none => exact List.Perm.refl l
  | some a =>
    cases hj : l.get? j with
    | none => exact List.Perm.refl l
    | some b =>
      obtain ⟨hi2, hgi⟩ := List.get?_eq_some.mp hi
      obtain ⟨hj2, hgj⟩ := List.get?_eq_some.mp hj
      have hgi3 : l[i] = a := by simpa using hgi
      have hgj3 : l[j] = b := by simpa using hgj
      have hj4 : j < (l.set i b).length := by simpa using hj2
      show ((l.set i b).set j a).Perm l
      refine List.perm_iff_count.mpr fun x => ?_
      have h1 := count_set_add l i b x hi2
      have h2 := count_set_add (l.set i b) j a x hj4
      have hvj : (l.set i b)[j] = b := by
        by_cases hij : i = j
        · subst hij
          simp
        · simp only [List.getElem_set_ne hij]
          exact hgj3
      simp only [hvj] at h2
      simp only [hgi3] at h1
      omega

theorem shuffleAux_perm [DecidableEq α] (js : List Nat) :
    ∀ (l : List α) (c : Nat), (shuffleAux l js c).Perm l := by
  induction js with
  | nil =>
    intro l c
    cases c with
    | zero => exact List.Perm.refl l
    | succ c => exact List.Perm.refl l
  | cons j rest ih =>
    intro l c
    cases c with
    | zero => exact List.Perm.refl l
    | succ c => exact (ih _ c).trans (swapAt_perm l (c + 1) (j % (c + 2)))

theorem shuffleGo_perm [DecidableEq α] (l : List α) (js : List Nat) :
    (shuffleGo l js).Perm l :=
  shuffleAux_perm js l (l.length - 1)

theorem tryAddrs_first_ok (l1 l2 : List Attempt) (t : Nat)
    (h : ∀ a ∈ l1, continuable a) :
    tryAddrs (l1 ++ Attempt.ok t :: l2) = (some t, none) := by
  induction l1 with
  | nil => rfl
  | cons a rest ih =>
    have ha := h a (List.mem_cons_self a rest)
    have ih2 := ih fun x hx => h x (List.mem_cons_of_mem a hx)
    cases a with
    | ok s => simp [continuable] at ha
    | timeoutErr => simpa [tryAddrs] using ih2
    | noSuchHost => simpa [tryAddrs] using ih2
    | otherErr e => simp [continuable] at ha

theorem tryAddrs_abort (l1 l2 : List Attempt) (e : String)
    (h : ∀ a ∈ l1, continuable a) :
    tryAddrs (l1 ++ Attempt.otherErr e :: l2) = (none, some (WErr.transportErr e)) := by
  induction l1 with
  | nil => rfl
  | cons a rest ih =>
    have ha := h a (List.mem_cons_self a rest)
    have ih2 := ih fun x hx => h x (List.mem_cons_of_mem a hx)
    cases a with
    | ok s => simp [continuable] at ha
    | timeoutErr => simpa [tryAddrs] using ih2
    | noSuchHost => simpa [tryAddrs] using ih2
    | otherErr f => simp [continuable] at ha

theorem tryAddrs_exhaust (l : List Attempt) (h : ∀ a ∈ l, continuable a) :
    tryAddrs l = (none, none) := by
  induction l with
  | nil => rfl
  | cons a rest ih =>
    have ha := h a (List.mem_cons_self a rest)
    have ih2 := ih fun x hx => h x (List.mem_cons_of_mem a hx)
    cases a with
    | ok s => simp [continuable] at ha
    | timeoutErr => simpa [tryAddrs] using ih2
    | noSuchHost => simpa [tryAddrs] using ih2
    | otherErr f => simp [continuable] at ha

theorem tryAddrs_snd_shape (l : List Attempt) :
    (tryAddrs l).2 = none ∨ ∃ e, (tryAddrs l).2 = some (WErr.transportErr e) := by
  induction l with
  | nil => exact Or.inl rfl
  | cons a rest ih =>
    cases a with
    | ok s => exact Or.inl rfl
    | timeoutErr => exact ih
    | noSuchHost => exact ih
    | otherErr f => exact Or.inr ⟨f, rfl⟩

/-! Theorems settling the claims. -/

/-- C1.  Counterexample: on a `request` whose wait is resolved by the
shutdown signal, the call returns (with a nil error) while its pending
entry is still registered in the handlers map — the early `return nil`
in the shutdown select case skips the `delete`, so the entry is not
removed before `request()` returns, contradicting the claim that every
branch removes it exactly once. -/
theorem C1_pending_entry_leak_counterexample :
    (request NewNode "m" [] none WaitOutcome.shutdownFired (fun _ => none)).ret = none ∧
    hmLookup (request NewNode "m" [] none WaitOutcome.shutdownFired
      (fun _ => none)).state.handlers 0 = some [] := by
  constructor
  · rfl
  · rfl

/-- C1 (amended).  The pending entry of a `request` call is removed
exactly once before returning on the response-delivery and timeout
branches; on the shutdown-signal branch and on a send failure the call
returns early with the entry still registered in the pending map. -/
theorem C1_pending_entry_branches (st : NodeState) (method : String) (params : List String)
    (decodeIn : String → Option WErr) (r : response) (e : String) :
    (hmLookup (request st method params none (WaitOutcome.delivered r)
        decodeIn).state.handlers (st.nextID % 2 ^ 32) = none) ∧
    (hmLookup (request st method params none WaitOutcome.timedOut
        decodeIn).state.handlers (st.nextID % 2 ^ 32) = none) ∧
    ((request st method params none WaitOutcome.shutdownFired decodeIn).state.handlers
        = hmInsert st.handlers (st.nextID % 2 ^ 32) []) ∧
    ((request st method params (some e) WaitOutcome.shutdownFired decodeIn).state.handlers
        = hmInsert st.handlers (st.nextID % 2 ^ 32) []) := by
  refine ⟨?_, ?_, rfl, rfl⟩
  · simpa [request] using hmLookup_hmErase (hmInsert st.handlers (st.nextID % 2 ^ 32) [])
      (st.nextID % 2 ^ 32)
  · simpa [request] using hmLookup_hmErase (hmInsert st.handlers (st.nextID % 2 ^ 32) [])
      (st.nextID % 2 ^ 32)

/-- C2.  Counterexample: the syntactically valid frame
`\x7b"id":7,"method":"x","error":"oops"\x7d` fails both decodes (a
string where each shape expects an error object), but the failed
unmarshal has already populated `msg.ID = 7` and `msg.Method = "x"`;
the receive loop then broadcasts the decode-failure response to the
subscribers of method `x` and delivers it to the pending request
registered under correlation id 7 — the frame is neither dropped from
broadcast nor kept away from pending channels, contradicting both
discard clauses of the claim. -/
theorem C2_undecodable_delivered_counterexample :
    (handleFrame
        { NewNode with handlers := [(7, [])], pushHandlers := [("x", [⟨1, []⟩])] }
        { raw := "\x7b\"id\":7,\"method\":\"x\",\"error\":\"oops\"\x7d",
          msgA := ⟨7, "x", ⟨0, ""⟩⟩, errA := some "type mismatch",
          msgB := zeroMsg2, errB := some "type mismatch" }).1
      = { nextID := 0,
          handlers :=
            [(7, [⟨"", some (WErr.decodeFail "\x7b\"id\":7,\"method\":\"x\",\"error\":\"oops\"\x7d")⟩])],
          pushHandlers :=
            [("x", [⟨1, [⟨"", some (WErr.decodeFail "\x7b\"id\":7,\"method\":\"x\",\"error\":\"oops\"\x7d")⟩]⟩])],
          timeout := oneSecond } := by
  rfl

/-- C2 (amended).  A frame failing both decodes has its failure
logged, and the decode-failure result is then routed like any other
envelope using whatever fields the failed unmarshal populated: it is
broadcast to the push subscribers of the populated method when that is
non-empty, and delivered to the pending request registered under the
populated id when one exists; the frame is discarded entirely only
when the populated method is empty and no request with the populated
id is pending.  In particular a syntactically invalid frame, whose
envelope stays zero-valued, is never broadcast and is delivered only
to a pending request with correlation id 0. -/
theorem C2_undecodable_frame (st : NodeState) (fr : Frame) (ea eb : String)
    (ha : fr.errA = some ea) (hb : fr.errB = some eb) :
    (handleFrame st fr).2 = [WErr.decodeFail fr.raw] ∧
    ((handleFrame st fr).1.pushHandlers
      = if 0 < fr.msgA.Method.length
        then pushBroadcast st.pushHandlers fr.msgA.Method
          { data := "", err := some (WErr.decodeFail fr.raw) }
        else st.pushHandlers) ∧
    ((handleFrame st fr).1.handlers
      = deliverToPending st.handlers fr.msgA.ID
          { data := "", err := some (WErr.decodeFail fr.raw) }) ∧
    (fr.msgA = zeroMsg →
      (handleFrame st fr).1.pushHandlers = st.pushHandlers ∧
      (hmLookup st.handlers 0 = none → (handleFrame st fr).1.handlers = st.handlers)) := by
  refine ⟨?_, ?_, ?_, ?_⟩
  · simp [handleFrame, decodeEnvelope, ha, hb]
  · simp [handleFrame, classify, decodeEnvelope, ha, hb]
  · simp [handleFrame, classify, decodeEnvelope, ha, hb]
  · intro hz
    constructor
    · simp [handleFrame, classify, decodeEnvelope, ha, hb, hz, zeroMsg]
    · intro h
      simp [handleFrame, classify, decodeEnvelope, ha, hb, hz, zeroMsg, deliverToPending, h]

/-- C2 witness: amended statement evaluated on the partially populated
type-mismatch frame, showing the delivery to pending id 7. -/
theorem C2_undecodable_frame_witness :
    (handleFrame
        { NewNode with handlers := [(7, [])], pushHandlers := [("x", [⟨1, []⟩])] }
        { raw := "bad", msgA := ⟨7, "x", ⟨0, ""⟩⟩, errA := some "tm",
          msgB := zeroMsg2, errB := some "tm" }).1.handlers
      = deliverToPending [(7, [])] 7 { data := "", err := some (WErr.decodeFail "bad") } :=
  (C2_undecodable_frame
    { NewNode with handlers := [(7, [])], pushHandlers := [("x", [⟨1, []⟩])] }
    { raw := "bad", msgA := ⟨7, "x", ⟨0, ""⟩⟩, errA := some "tm",
      msgB := zeroMsg2, errB := some "tm" } "tm" "tm" rfl rfl).2.2.1

/-- C4.  The correlation id is obtained by the non-atomic pair
`nextID.Load()` then `nextID.Inc()`: under the interleaving in which
both of two concurrent `request` calls execute their `Load` before
either executes its `Inc`, both calls are assigned correlation id 0 —
the code does not guarantee distinct ids for concurrent calls. -/
theorem C4_load_inc_race_same_id :
    (raceRun [0, 1, 0, 1] 2).loaded = [some 0, some 0] ∧
    (raceRun [0, 1, 0, 1] 2).counter = 2 := by
  constructor
  · rfl
  · rfl

/-- C7.  Counterexample: a decoded frame whose error field is
non-empty (code 5) but whose error message is the empty string is
classified as a success response carrying the raw payload bytes, not
as a server-error response — the code tests only the message length,
not the whole error field. -/
theorem C7_nonempty_error_field_counterexample :
    (classify ⟨"x", ⟨1, "", ⟨5, ""⟩⟩, none, zeroMsg2, none⟩).1.Error
      ≠ ({ Code := 0, Message := "" } : WalletError) ∧
    (classify ⟨"x", ⟨1, "", ⟨5, ""⟩⟩, none, zeroMsg2, none⟩).2 = { data := "x", err := none } := by
  constructor
  · decide
  · rfl

/-- C7 (amended).  For every successfully decoded frame, the receive
loop builds a server-error response from the error's code and message
exactly when the error's message string is non-empty; otherwise — even
when the error code is non-zero — it builds a success response
carrying the raw payload bytes. -/
theorem C7_classification (fr : Frame) (m : Msg) (h : decodeEnvelope fr = (m, none)) :
    (0 < m.Error.Message.length →
      (classify fr).2 = { data := "", err := some (WErr.serverErr m.Error.Code m.Error.Message) }) ∧
    (m.Error.Message.length = 0 → (classify fr).2 = { data := fr.raw, err := none }) := by
  constructor
  · intro hm
    simp [classify, h, hm]
  · intro hm
    simp [classify, h, hm]

/-- C7 witness: classification evaluated on a decoded server-error
frame with a non-empty message and on a success frame. -/
theorem C7_classification_witness :
    (classify ⟨"y", ⟨2, "", ⟨3, "bad"⟩⟩, none, zeroMsg2, none⟩).2
      = { data := "", err := some (WErr.serverErr 3 "bad") } :=
  (C7_classification ⟨"y", ⟨2, "", ⟨3, "bad"⟩⟩, none, zeroMsg2, none⟩
    ⟨2, "", ⟨3, "bad"⟩⟩ rfl).1 (by decide)

/-- C9.  On a freshly constructed node the first `request` call is
assigned correlation id 0, and the bytes handed to `transport.Send`
are exactly the JSON serialization of the request object (fields
`id`, `method`, `params` in order) followed by the single protocol
delimiter byte. -/
theorem C9_first_request_bytes (method : String) (params : List String)
    (sendRes : Option String) (outcome : WaitOutcome) (decodeIn : String → Option WErr) :
    (request NewNode method params sendRes outcome decodeIn).reqID = 0 ∧
    (request NewNode method params sendRes outcome decodeIn).sent
      = marshalRequest 0 method params ++ String.mk [delimiter] := by
  cases sendRes with
  | some e => exact ⟨rfl, rfl⟩
  | none =>
    cases outcome with
    | shutdownFired => exact ⟨rfl, rfl⟩
    | delivered r => exact ⟨rfl, rfl⟩
    | timedOut => exact ⟨rfl, rfl⟩

/-- C3.  A `request` call resolves by the strictly first of three
events: a shutdown signal firing before the response and before the
timeout makes it return a nil error (no answer, client torn down) —
in particular a request blocked at shutdown unblocks without waiting
out its timeout; a response arriving first makes it return that
response's decoded error or success; and when neither occurs within
the configured timeout it returns the `Timeout` error.  The default
timeout of a fresh node is one second. -/
theorem C3_request_resolution (st : NodeState) (method : String) (params : List String)
    (decodeIn : String → Option WErr) (r : response) (s t : Nat) :
    NewNode.timeout = oneSecond ∧
    (s < t → s < st.timeout →
      (request st method params none (selectOutcome (some s) (some t) r st.timeout)
        decodeIn).ret = none) ∧
    (s < st.timeout →
      (request st method params none (selectOutcome (some s) none r st.timeout)
        decodeIn).ret = none) ∧
    (t < s → t < st.timeout →
      (request st method params none (selectOutcome (some s) (some t) r st.timeout)
        decodeIn).ret
        = (match r.err with | some e => some e | none => decodeIn r.data)) ∧
    (t < st.timeout →
      (request st method params none (selectOutcome none (some t) r st.timeout)
        decodeIn).ret
        = (match r.err with | some e => some e | none => decodeIn r.data)) ∧
    (st.timeout ≤ s → st.timeout ≤ t →
      (request st method params none (selectOutcome (some s) (some t) r st.timeout)
        decodeIn).ret = some WErr.errTimeout) ∧
    ((request st method params none (selectOutcome none none r st.timeout)
        decodeIn).ret = some WErr.errTimeout) := by
  refine ⟨rfl, ?_, ?_, ?_, ?_, ?_, ?_⟩
  · intro hst hsto
    simp [selectOutcome, request, Nat.le_of_lt hst, hsto]
  · intro hsto
    simp [selectOutcome, request, hsto]
  · intro hts htto
    have hns : ¬ (s ≤ t ∧ s < st.timeout) := fun hc => Nat.not_le.mpr hts hc.1
    simp [selectOutcome, request, hns, htto]
  · intro htto
    simp [selectOutcome, request, htto]
  · intro hs ht
    have hns : ¬ (s ≤ t ∧ s < st.timeout) := fun hc => Nat.not_lt.mpr hs hc.2
    simp [selectOutcome, request, hns, Nat.not_lt.mpr ht]
  · simp [selectOutcome, request]

/-- C3 witness: a request whose shutdown signal fires at time 0 while
the response would arrive at time 5 resolves to a nil error, without
waiting out the one-second timeout. -/
theorem C3_request_resolution_witness :
    (0 : Nat) < 5 ∧ (0 : Nat) < NewNode.timeout ∧
    (request NewNode "m" [] none
        (selectOutcome (some 0) (some 5) { data := "d", err := none } NewNode.timeout)
        (fun _ => none)).ret = none :=
  ⟨by decide, by decide,
    (C3_request_resolution NewNode "m" [] (fun _ => none) { data := "d", err := none }
      0 5).2.1 (by decide) (by decide)⟩

/-- C6.  An inbound frame decodable only under the alternate error
shape B is normalized into the primary shape: the receive loop treats
it exactly as it treats the shape-A frame carrying the same id, the
same method, and the B-frame's nested inner error object — whatever
partial fields the failed shape-A unmarshal left behind are fully
overwritten by the normalization, so the two frames produce identical
routing effects on any node state and the calling `request()` observes
an identical result. -/
theorem C6_shapeB_normalized (st : NodeState) (rawB rawA : String) (mPart : Msg)
    (ea : String) (m2 mB2 : Msg2) (eb : Option String)
    (h : 0 < m2.Error.Message.Message.length) :
    handleFrame st { raw := rawB, msgA := mPart, errA := some ea, msgB := m2, errB := none }
      = handleFrame st
          { raw := rawA,
            msgA := { ID := m2.ID, Method := m2.Method, Error := m2.Error.Message },
            errA := none, msgB := mB2, errB := eb } := by
  simp [handleFrame, classify, decodeEnvelope, h]

/-- C6 witness: normalization equivalence evaluated on a concrete
shape-B error frame (whose failed shape-A decode left partial fields
behind) and its shape-A counterpart. -/
theorem C6_shapeB_normalized_witness :
    0 < ("bad").length ∧
    handleFrame NewNode
        { raw := "rawB", msgA := ⟨3, "mth", ⟨0, ""⟩⟩, errA := some "tm",
          msgB := ⟨3, "mth", ⟨1, ⟨7, "bad"⟩⟩⟩, errB := none }
      = handleFrame NewNode
          { raw := "rawA", msgA := ⟨3, "mth", ⟨7, "bad"⟩⟩, errA := none,
            msgB := zeroMsg2, errB := some "tm" } :=
  ⟨by decide,
    C6_shapeB_normalized NewNode "rawB" "rawA" ⟨3, "mth", ⟨0, ""⟩⟩ "tm"
      ⟨3, "mth", ⟨1, ⟨7, "bad"⟩⟩⟩ zeroMsg2 (some "tm") (by decide)⟩

/-- C8.  For a decoded frame carrying a non-empty method name the
receive loop offers a copy of the response to every currently
registered subscriber of that method by a non-blocking send: the
method's channel list is mapped through `offerNB`, which appends the
response when the channel has room and leaves a full channel
unchanged; subscribers of other methods are untouched; a push for a
method with no subscribers changes nothing; and the delivery to the
pending handler proceeds regardless. -/
theorem C8_push_fanout (st : NodeState) (fr : Frame) (m : Msg)
    (hd : decodeEnvelope fr = (m, none)) (hm : 0 < m.Method.length) :
    ((handleFrame st fr).1.pushHandlers
        = pushBroadcast st.pushHandlers m.Method (classify fr).2) ∧
    (pmLookup (handleFrame st fr).1.pushHandlers m.Method
        = (pmLookup st.pushHandlers m.Method).map (offerNB (classify fr).2)) ∧
    (∀ other, ¬ other = m.Method →
        pmLookup (handleFrame st fr).1.pushHandlers other = pmLookup st.pushHandlers other) ∧
    (∀ c : Chan, c.cap ≤ c.buf.length → offerNB (classify fr).2 c = c) ∧
    (∀ c : Chan, c.buf.length < c.cap →
        offerNB (classify fr).2 c = { cap := c.cap, buf := c.buf ++ [(classify fr).2] }) ∧
    ((∀ e ∈ st.pushHandlers, ¬ e.1 = m.Method) →
        (handleFrame st fr).1.pushHandlers = st.pushHandlers) ∧
    ((handleFrame st fr).1.handlers = deliverToPending st.handlers m.ID (classify fr).2) := by
  have hph : (handleFrame st fr).1.pushHandlers
      = pushBroadcast st.pushHandlers m.Method (classify fr).2 := by
    by_cases herr : 0 < m.Error.Message.length <;>
      simp [handleFrame, classify, hd, hm, herr]
  refine ⟨hph, ?_, ?_, ?_, ?_, ?_, ?_⟩
  · rw [hph, pmLookup_pushBroadcast_self]
  · intro other ho
    rw [hph, pmLookup_pushBroadcast_ne _ _ _ _ ho]
  · intro c hc
    simp [offerNB, Nat.not_lt.mpr hc]
  · intro c hc
    simp [offerNB, hc]
  · intro hno
    rw [hph, pushBroadcast_of_no_subscriber _ _ _ hno]
  · by_cases herr : 0 < m.Error.Message.length <;>
      simp [handleFrame, classify, hd, herr]

/-- C8 witness: a push frame for method `mth` on a node with one
subscriber with room and one full subscriber — the method's channel
list is exactly the `offerNB` image. -/
theorem C8_push_fanout_witness :
    pmLookup (handleFrame
        { NewNode with pushHandlers := [("mth", [⟨1, []⟩, ⟨1, [{ data := "o", err := none }]⟩])] }
        ⟨"push", ⟨0, "mth", ⟨0, ""⟩⟩, none, zeroMsg2, none⟩).1.pushHandlers "mth"
      = (pmLookup [("mth", [⟨1, []⟩, ⟨1, [{ data := "o", err := none }]⟩])] "mth").map
          (offerNB (classify ⟨"push", ⟨0, "mth", ⟨0, ""⟩⟩, none, zeroMsg2, none⟩).2) :=
  (C8_push_fanout
    { NewNode with pushHandlers := [("mth", [⟨1, []⟩, ⟨1, [{ data := "o", err := none }]⟩])] }
    ⟨"push", ⟨0, "mth", ⟨0, ""⟩⟩, none, zeroMsg2, none⟩
    ⟨0, "mth", ⟨0, ""⟩⟩ rfl (by decide)).2.1

/-- C5.  On a not-yet-connected node, `Connect` tries the candidates
in the randomly shuffled order (a permutation of the caller's list)
and stops at the first candidate that yields a Transport; a
timeout-classified or DNS-resolution failure is non-fatal and the next
candidate is tried; any other connection error aborts `Connect`
immediately with that error; and when every candidate fails with only
the continuable failure classes, `Connect` returns `ErrConnectFailed`. -/
theorem C5_connect_failover (addrs : List String) (js : List Nat)
    (attempt : String → Attempt) :
    ((shuffleGo addrs js).Perm addrs) ∧
    (∀ l1 t l2, (shuffleGo addrs js).map attempt = l1 ++ Attempt.ok t :: l2 →
      (∀ a ∈ l1, continuable a) →
      Connect none addrs js attempt
        = { addrs := shuffleGo addrs js, transport := some t, ret := none }) ∧
    (∀ l1 e l2, (shuffleGo addrs js).map attempt = l1 ++ Attempt.otherErr e :: l2 →
      (∀ a ∈ l1, continuable a) →
      Connect none addrs js attempt
        = { addrs := shuffleGo addrs js, transport := none,
            ret := some (WErr.transportErr e) }) ∧
    ((∀ a ∈ (shuffleGo addrs js).map attempt, continuable a) →
      Connect none addrs js attempt
        = { addrs := shuffleGo addrs js, transport := none,
            ret := some WErr.errConnectFailed }) := by
  refine ⟨shuffleGo_perm addrs js, ?_, ?_, ?_⟩
  · intro l1 t l2 hsplit hcont
    have htr : tryAddrs ((shuffleGo addrs js).map attempt) = (some t, none) := by
      rw [hsplit]
      exact tryAddrs_first_ok l1 l2 t hcont
    simp [Connect, htr]
  · intro l1 e l2 hsplit hcont
    have htr : tryAddrs ((shuffleGo addrs js).map attempt)
        = (none, some (WErr.transportErr e)) := by
      rw [hsplit]
      exact tryAddrs_abort l1 l2 e hcont
    simp [Connect, htr]
  · intro hall
    have htr : tryAddrs ((shuffleGo addrs js).map attempt) = (none, none) :=
      tryAddrs_exhaust _ hall
    simp [Connect, htr]

/-- C5 witness: three candidates shuffled to `["c", "a", "b"]`, the
first failing with a timeout and the second succeeding — `Connect`
stops there without touching the third. -/
theorem C5_connect_failover_witness :
    Connect none ["a", "b", "c"] [1, 0]
        (fun s => if s = "c" then Attempt.timeoutErr
                  else if s = "a" then Attempt.ok 7 else Attempt.otherErr "x")
      = { addrs := ["c", "a", "b"], transport := some 7, ret := none } :=
  (C5_connect_failover ["a", "b", "c"] [1, 0]
      (fun s => if s = "c" then Attempt.timeoutErr
                else if s = "a" then Attempt.ok 7 else Attempt.otherErr "x")).2.1
    [Attempt.timeoutErr] 7 [Attempt.otherErr "x"] (by decide) (by decide)

/-- C10.  A `Connect` on an already-connected node fails with
`ErrNodeConnected` and leaves the caller's address slice untouched;
on a not-yet-connected node the caller's slice is left permuted by the
in-place shuffle (a permutation of the original) whatever the outcome
of the connection attempts, and that path never reports
`ErrNodeConnected`. -/
theorem C10_connect_mutates_slice (tr : Option Nat) (addrs : List String)
    (js : List Nat) (attempt : String → Attempt) :
    (∀ t, tr = some t →
      Connect tr addrs js attempt
        = { addrs := addrs, transport := some t, ret := some WErr.errNodeConnected }) ∧
    ((Connect none addrs js attempt).addrs = shuffleGo addrs js) ∧
    ((shuffleGo addrs js).Perm addrs) ∧
    (¬ (Connect none addrs js attempt).ret = some WErr.errNodeConnected) := by
  refine ⟨?_, ?_, shuffleGo_perm addrs js, ?_⟩
  · intro t ht
    subst ht
    rfl
  · cases he : (tryAddrs ((shuffleGo addrs js).map attempt)).2 with
    | some e => simp [Connect, he]
    | none =>
      cases ho : (tryAddrs ((shuffleGo addrs js).map attempt)).1 with
      | some t => simp [Connect, he, ho]
      | none => simp [Connect, he, ho]
  · rcases tryAddrs_snd_shape ((shuffleGo addrs js).map attempt) with he | ⟨e, he⟩
    · cases ho : (tryAddrs ((shuffleGo addrs js).map attempt)).1 with
      | some t => simp [Connect, he, ho]
      | none => simp [Connect, he, ho]
    · simp [Connect, he]

/-- C10 witness: a second `Connect` on a node whose transport is
already set returns `ErrNodeConnected` with the slice untouched, and
a first `Connect` on the fresh node leaves the shuffled slice behind
even though every candidate fails. -/
theorem C10_connect_mutates_slice_witness :
    Connect (some 5) ["a", "b"] [1] (fun _ => Attempt.timeoutErr)
      = { addrs := ["a", "b"], transport := some 5, ret := some WErr.errNodeConnected } ∧
    (Connect none ["a", "b"] [1] (fun _ => Attempt.timeoutErr)).addrs
      = shuffleGo ["a", "b"] [1] :=
  ⟨(C10_connect_mutates_slice (some 5) ["a", "b"] [1] (fun _ => Attempt.timeoutErr)).1 5 rfl,
    (C10_connect_mutates_slice (some 5) ["a", "b"] [1] (fun _ => Attempt.timeoutErr)).2.1⟩

end Wallet
